import Mathlib

/-!
Shallow embedding of the decay-grid aggregation used by the 3D-surface
scripts of this repository (`src/3dview.py` and the function
`plot_3d_speed_fuel_decay` of `src/Presentation/generate_plots.py`).

The scripts filter the loaded table to one ship speed
(`df_3d = df[df[Ship_Speed] == speed_val]`), pivot it with
`pivot_table(values=..., index=Compressor_Decay, columns=Turbine_Decay)`
(aggregator: mean, the pandas default), and normalise the temperature
grid with `(Temp - Temp.min()) / (Temp.max() - Temp.min())`.

Pandas `pivot_table` with its default `dropna=True` aggregates the value
column over each (index, columns) key pair, skipping missing values
inside a group, and drops every group all of whose values are missing;
the resulting axis labels are the sorted distinct key values of the
surviving groups, and key pairs with no surviving group unstack to a
missing (NaN) cell.  Numpy `min`/`max` propagate NaN, and the elementwise
normalisation maps NaN to NaN (including the 0/0 case when the range is
degenerate).  Reals are modelled by `ℚ`, missing values by `Option`.
-/

/-- The measurement columns the 3D-surface scripts pivot on. -/
inductive Col
  | fuel_flow
  | t48
  deriving DecidableEq, Repr

/-- One row of the cleaned table, restricted to the columns the
3D-surface scripts touch.  A measurement is `none` when missing. -/
structure Observation where
  ship_speed : ℚ
  compressor_decay : ℚ
  turbine_decay : ℚ
  fuel_flow : Option ℚ
  t48 : Option ℚ
  deriving DecidableEq, Repr

/-- Column access for the two pivoted measurement fields. -/
def Observation.get (o : Observation) : Col → Option ℚ
  | .fuel_flow => o.fuel_flow
  | .t48 => o.t48

/-- `df[df[Ship_Speed] == speed_val]` — the speed filter of both scripts. -/
def df_3d (df : List Observation) (speed_val : ℚ) : List Observation :=
  df.filter fun o => decide (o.ship_speed = speed_val)

/-- Sorted distinct values, as pandas produces for an axis of a pivoted
frame. -/
def sortedDistinct (l : List ℚ) : List ℚ :=
  List.insertionSort (· ≤ ·) l.dedup

/-- The rows whose pivoted value is present; only these contribute a key
pair, because `pivot_table` (with `dropna=True`) drops all-missing
groups. -/
def relRows (rows : List Observation) (f : Col) : List Observation :=
  rows.filter fun o => (o.get f).isSome

/-- Row labels of the pivoted frame: sorted distinct compressor-decay
values among rows with a present value. -/
def rowKeysOf (rows : List Observation) (f : Col) : List ℚ :=
  sortedDistinct ((relRows rows f).map (·.compressor_decay))

/-- Column labels of the pivoted frame: sorted distinct turbine-decay
values among rows with a present value. -/
def colKeysOf (rows : List Observation) (f : Col) : List ℚ :=
  sortedDistinct ((relRows rows f).map (·.turbine_decay))

/-- One step of the grouped aggregation: fold a row into the running
(sum, count) of the group keyed by `(r, c)`, skipping missing values. -/
def aggStep (f : Col) (r c : ℚ) (acc : ℚ × ℕ) (o : Observation) : ℚ × ℕ :=
  if o.compressor_decay = r ∧ o.turbine_decay = c then
    match o.get f with
    | some x => (acc.1 + x, acc.2 + 1)
    | none => acc
  else acc

/-- The aggregated cell for key pair `(r, c)`: the mean of the present
values of the group, or `none` (NaN) when the group has no present
value. -/
def aggCell (rows : List Observation) (f : Col) (r c : ℚ) : Option ℚ :=
  let sc := rows.foldl (aggStep f r c) (0, 0)
  if sc.2 = 0 then none else some (sc.1 / (sc.2 : ℚ))

/-- A pivoted frame: row labels, column labels, and the rectangular cell
matrix (`cells.get i |>.get j` belongs to `rowKeys.get i`,
`colKeys.get j`); a `none` cell is a NaN hole. -/
structure DecayGrid where
  rowKeys : List ℚ
  colKeys : List ℚ
  cells : List (List (Option ℚ))
  deriving DecidableEq, Repr

/-- `rows.pivot_table(values=f, index=Compressor_Decay,
columns=Turbine_Decay, aggfunc=mean)`. -/
def pivot_table (rows : List Observation) (f : Col) : DecayGrid :=
  ⟨rowKeysOf rows f, colKeysOf rows f,
    (rowKeysOf rows f).map fun r => (colKeysOf rows f).map fun c => aggCell rows f r c⟩

/-- `pivot` of `src/3dview.py` (line 17), generalised over the loaded
table and the selected speed (the script fixes `speed_val = 15`). -/
def pivot (df : List Observation) (speed_val : ℚ) : DecayGrid :=
  pivot_table (df_3d df speed_val) Col.fuel_flow

/-- `pivot_z` of `src/3dview.py` (line 57): the height grid of the
second plot, pivoted again with the same parameters. -/
def pivot_z (df : List Observation) (speed_val : ℚ) : DecayGrid :=
  pivot_table (df_3d df speed_val) Col.fuel_flow

/-- `pivot_temp` of `src/3dview.py` (line 62): the colour grid. -/
def pivot_temp (df : List Observation) (speed_val : ℚ) : DecayGrid :=
  pivot_table (df_3d df speed_val) Col.t48

/-- Key-directed lookup into a parallel list, first match wins. -/
def lookupBy {α : Type _} : List ℚ → List α → ℚ → Option α
  | k :: ks, x :: xs, q => if q = k then some x else lookupBy ks xs q
  | _, _, _ => none

/-- The cell of a grid at a (row key, column key) pair: `none` when the
key pair is off the grid, `some none` at a NaN hole. -/
def gridCell (g : DecayGrid) (r c : ℚ) : Option (Option ℚ) :=
  (lookupBy g.rowKeys g.cells r).bind fun row => lookupBy g.colKeys row c

/-- The cell of a grid at positional indices. -/
def cellAt (g : DecayGrid) (i j : ℕ) : Option (Option ℚ) :=
  g.cells[i]?.bind fun row => row[j]?

/-- Mean of a list of rationals, `none` on the empty list. -/
def listMean (l : List ℚ) : Option ℚ :=
  if l.length = 0 then none else some (l.sum / (l.length : ℚ))

/-- Brute-force reconstruction of one group: the present values of the
rows whose key pair is exactly `(r, c)`. -/
def bruteVals (rows : List Observation) (f : Col) (r c : ℚ) : List ℚ :=
  (rows.filter fun o =>
      decide (o.compressor_decay = r) && decide (o.turbine_decay = c)).filterMap
    fun o => o.get f

/-- NaN-propagating binary minimum, as numpy reduces `min` over an
array that may hold NaN. -/
def nanMin2 : Option ℚ → Option ℚ → Option ℚ
  | some a, some b => some (min a b)
  | _, _ => none

/-- NaN-propagating binary maximum. -/
def nanMax2 : Option ℚ → Option ℚ → Option ℚ
  | some a, some b => some (max a b)
  | _, _ => none

/-- `arr.min()` of numpy: NaN as soon as any entry is NaN. -/
def nanMin (l : List (Option ℚ)) : Option ℚ :=
  match l with
  | [] => none
  | x :: xs => xs.foldl nanMin2 x

/-- `arr.max()` of numpy: NaN as soon as any entry is NaN. -/
def nanMax (l : List (Option ℚ)) : Option ℚ :=
  match l with
  | [] => none
  | x :: xs => xs.foldl nanMax2 x

/-- `min_temp = Temp.min()` of `src/3dview.py` (line 67). -/
def min_temp (g : DecayGrid) : Option ℚ :=
  nanMin g.cells.flatten

/-- `max_temp = Temp.max()` of `src/3dview.py` (line 67). -/
def max_temp (g : DecayGrid) : Option ℚ :=
  nanMax g.cells.flatten

/-- One elementwise step of `(Temp - min_temp) / (max_temp - min_temp)`:
NaN operands propagate, and the reachable division by zero is the 0/0
case, which is NaN. -/
def normCell (mn mx v : Option ℚ) : Option ℚ :=
  match v, mn, mx with
  | some x, some a, some b => if b - a = 0 then none else some ((x - a) / (b - a))
  | _, _, _ => none

/-- `Temp_norm = (Temp - min_temp) / (max_temp - min_temp)` of
`src/3dview.py` (line 68), kept with the axis labels of its grid. -/
def Temp_norm (g : DecayGrid) : DecayGrid :=
  ⟨g.rowKeys, g.colKeys,
    g.cells.map (List.map (normCell (min_temp g) (max_temp g)))⟩

/-- Modelled from the spec (the source has no such computation): the
minimum over the defined cells only, ignoring undefined ones. -/
def definedMin (l : List (Option ℚ)) : Option ℚ :=
  match l.filterMap id with
  | [] => none
  | x :: xs => some (xs.foldl min x)

/-- One invocation of the grid build, returning the grid together with
the dataset as the caller still sees it afterwards (the pandas calls
`df[...]` and `pivot_table` allocate fresh frames and leave their input
untouched). -/
def buildGridCall (df : List Observation) (speed_val : ℚ) (f : Col) :
    DecayGrid × List Observation :=
  (pivot_table (df_3d df speed_val) f, df)

/-- The 4-row dataset of the scenario in the spec, every row at the one
speed the filter keeps. -/
def ex4 : List Observation :=
  [⟨15, 1, 1, some 10, some 1⟩, ⟨15, 1, 1, some 12, some 1⟩,
   ⟨15, 95/100, 1, some 20, some 1⟩, ⟨15, 95/100, 975/1000, some 30, some 1⟩]

/-- Two rows whose fuel and temperature values are missing on opposite
rows: the two measurement columns have different missing patterns. -/
def ex2 : List Observation :=
  [⟨15, 9/10, 1, some 1, none⟩, ⟨15, 1, 1, none, some 2⟩]

/-- Two rows, one with a missing fuel value carrying an otherwise
unseen compressor-decay key. -/
def ex3 : List Observation :=
  [⟨15, 9/10, 1, none, none⟩, ⟨15, 1, 1, some 1, some 1⟩]

/-- A grid whose every cell is the same defined value. -/
def gConst : DecayGrid :=
  ⟨[1], [1, 2], [[some 5, some 5]]⟩

/-- A grid mixing defined cells with one NaN hole. -/
def gMix : DecayGrid :=
  ⟨[1, 2], [1, 2], [[some 1, some 3], [some 2, none]]⟩

/-- A fully defined grid with a non-degenerate range. -/
def gAll : DecayGrid :=
  ⟨[1], [1, 2], [[some 1, some 3]]⟩

/-! Helper lemmas. -/

lemma lookupBy_map {α : Type _} (fn : ℚ → α) :
    ∀ (ks : List ℚ) (q : ℚ), q ∈ ks → lookupBy ks (ks.map fn) q = some (fn q) := by
  intro ks
  induction ks with
  | nil => simp
  | cons k ks ih =>
    intro q hq
    by_cases h : q = k
    · subst h
      simp [lookupBy]
    · have hq2 : q ∈ ks := by
        rcases List.mem_cons.mp hq with h1 | h1
        · exact absurd h1 h
        · exact h1
      simpa [lookupBy, h] using ih q hq2

lemma foldl_aggStep (f : Col) (r c : ℚ) :
    ∀ (rows : List Observation) (s : ℚ) (n : ℕ),
      rows.foldl (aggStep f r c) (s, n) =
        (s + (bruteVals rows f r c).sum, n + (bruteVals rows f r c).length) := by
  intro rows
  induction rows with
  | nil => intro s n; simp [bruteVals]
  | cons o os ih =>
    intro s n
    by_cases h : o.compressor_decay = r ∧ o.turbine_decay = c
    · cases hv : o.get f with
      | none =>
        simp [aggStep, h, h.1, h.2, hv, bruteVals, List.filter_cons, ih]
      | some x =>
        simp [aggStep, h, h.1, h.2, hv, bruteVals, List.filter_cons, ih, Prod.ext_iff]
        refine ⟨by ring, by omega⟩
    · have hb : (decide (o.compressor_decay = r) && decide (o.turbine_decay = c)) = false := by
        rcases Decidable.not_and_iff_or_not.mp h with h1 | h1 <;> simp [h1]
      simp [aggStep, h, bruteVals, List.filter_cons, hb, ih]

lemma aggCell_eq_listMean (rows : List Observation) (f : Col) (r c : ℚ) :
    aggCell rows f r c = listMean (bruteVals rows f r c) := by
  unfold aggCell listMean
  rw [foldl_aggStep f r c rows 0 0]
  simp

lemma gridCell_pivot_table (rows : List Observation) (f : Col) {r c : ℚ}
    (hr : r ∈ (pivot_table rows f).rowKeys) (hc : c ∈ (pivot_table rows f).colKeys) :
    gridCell (pivot_table rows f) r c = some (aggCell rows f r c) := by
  simp only [pivot_table] at hr hc
  have h1 := lookupBy_map
    (fun r => (colKeysOf rows f).map fun c => aggCell rows f r c) (rowKeysOf rows f) r hr
  have h2 := lookupBy_map (fun c => aggCell rows f r c) (colKeysOf rows f) c hc
  simp only [gridCell, pivot_table, h1]
  simpa using h2

lemma mem_sortedDistinct {l : List ℚ} {x : ℚ} : x ∈ sortedDistinct l ↔ x ∈ l := by
  rw [sortedDistinct, (List.perm_insertionSort _ _).mem_iff, List.mem_dedup]

lemma sortedDistinct_sorted_lt (l : List ℚ) : (sortedDistinct l).Sorted (· < ·) := by
  have hs : (sortedDistinct l).Sorted (· ≤ ·) := List.sorted_insertionSort _ _
  have hn : (sortedDistinct l).Nodup :=
    (List.perm_insertionSort _ _).nodup_iff.mpr l.nodup_dedup
  exact hs.lt_of_le hn

lemma mem_rowKeysOf {rows : List Observation} {f : Col} {r : ℚ} :
    r ∈ rowKeysOf rows f ↔
      ∃ o, o ∈ rows ∧ (o.get f).isSome = true ∧ o.compressor_decay = r := by
  simp [rowKeysOf, mem_sortedDistinct, relRows, List.mem_filter, and_assoc]

lemma mem_colKeysOf {rows : List Observation} {f : Col} {c : ℚ} :
    c ∈ colKeysOf rows f ↔
      ∃ o, o ∈ rows ∧ (o.get f).isSome = true ∧ o.turbine_decay = c := by
  simp [colKeysOf, mem_sortedDistinct, relRows, List.mem_filter, and_assoc]

lemma foldl_none_absorb (op : Option ℚ → Option ℚ → Option ℚ)
    (h1 : ∀ x, op none x = none) :
    ∀ l : List (Option ℚ), l.foldl op none = none := by
  intro l
  induction l with
  | nil => rfl
  | cons x xs ih => simp [h1, ih]

lemma foldl_none_of_mem (op : Option ℚ → Option ℚ → Option ℚ)
    (h1 : ∀ x, op none x = none) (h2 : ∀ a, op a none = none) :
    ∀ (l : List (Option ℚ)) (acc : Option ℚ), none ∈ l → l.foldl op acc = none := by
  intro l
  induction l with
  | nil => intro acc h; simp at h
  | cons x xs ih =>
    intro acc h
    rcases List.mem_cons.mp h with h1m | h1m
    · subst h1m
      simp [h2, foldl_none_absorb op h1]
    · simp [ih _ h1m]

lemma nanMin2_none_left (x : Option ℚ) : nanMin2 none x = none := by cases x <;> rfl

lemma nanMin2_none_right (a : Option ℚ) : nanMin2 a none = none := by cases a <;> rfl

lemma nanMax2_none_left (x : Option ℚ) : nanMax2 none x = none := by cases x <;> rfl

lemma nanMax2_none_right (a : Option ℚ) : nanMax2 a none = none := by cases a <;> rfl

lemma nanMin_eq_none_of_mem {l : List (Option ℚ)} (h : none ∈ l) : nanMin l = none := by
  cases l with
  | nil => rfl
  | cons x xs =>
    rcases List.mem_cons.mp h with h1 | h1
    · subst h1
      exact foldl_none_absorb nanMin2 nanMin2_none_left xs
    · exact foldl_none_of_mem nanMin2 nanMin2_none_left nanMin2_none_right xs x h1

lemma nanMax_eq_none_of_mem {l : List (Option ℚ)} (h : none ∈ l) : nanMax l = none := by
  cases l with
  | nil => rfl
  | cons x xs =>
    rcases List.mem_cons.mp h with h1 | h1
    · subst h1
      exact foldl_none_absorb nanMax2 nanMax2_none_left xs
    · exact foldl_none_of_mem nanMax2 nanMax2_none_left nanMax2_none_right xs x h1

lemma foldl_nanMin2_le :
    ∀ (l : List (Option ℚ)) (acc : Option ℚ) (m : ℚ),
      l.foldl nanMin2 acc = some m →
      (∀ x : ℚ, some x ∈ l → m ≤ x) ∧ (∀ a : ℚ, acc = some a → m ≤ a) := by
  intro l
  induction l with
  | nil =>
    intro acc m hm
    simp at hm
    subst hm
    exact ⟨by simp, fun a ha => by simp_all⟩
  | cons y ys ih =>
    intro acc m hm
    simp only [List.foldl_cons] at hm
    cases acc with
    | none =>
      rw [nanMin2_none_left, foldl_none_absorb nanMin2 nanMin2_none_left] at hm
      exact absurd hm (by simp)
    | some a0 =>
      cases y with
      | none =>
        rw [nanMin2_none_right, foldl_none_absorb nanMin2 nanMin2_none_left] at hm
        exact absurd hm (by simp)
      | some x0 =>
        have hmid := (ih (nanMin2 (some a0) (some x0)) m hm).2 (min a0 x0) rfl
        refine ⟨?_, ?_⟩
        · intro x hx
          rcases List.mem_cons.mp hx with h1 | h1
          · have : x0 = x := by injection h1.symm
            subst this
            exact le_trans hmid (min_le_right a0 x0)
          · exact (ih (nanMin2 (some a0) (some x0)) m hm).1 x h1
        · intro a ha
          have : a0 = a := by injection ha
          subst this
          exact le_trans hmid (min_le_left a0 x0)

lemma foldl_nanMax2_ge :
    ∀ (l : List (Option ℚ)) (acc : Option ℚ) (m : ℚ),
      l.foldl nanMax2 acc = some m →
      (∀ x : ℚ, some x ∈ l → x ≤ m) ∧ (∀ a : ℚ, acc = some a → a ≤ m) := by
  intro l
  induction l with
  | nil =>
    intro acc m hm
    simp at hm
    subst hm
    exact ⟨by simp, fun a ha => by simp_all⟩
  | cons y ys ih =>
    intro acc m hm
    simp only [List.foldl_cons] at hm
    cases acc with
    | none =>
      rw [nanMax2_none_left, foldl_none_absorb nanMax2 nanMax2_none_left] at hm
      exact absurd hm (by simp)
    | some a0 =>
      cases y with
      | none =>
        rw [nanMax2_none_right, foldl_none_absorb nanMax2 nanMax2_none_left] at hm
        exact absurd hm (by simp)
      | some x0 =>
        have hmid := (ih (nanMax2 (some a0) (some x0)) m hm).2 (max a0 x0) rfl
        refine ⟨?_, ?_⟩
        · intro x hx
          rcases List.mem_cons.mp hx with h1 | h1
          · have : x0 = x := by injection h1.symm
            subst this
            exact le_trans (le_max_right a0 x0) hmid
          · exact (ih (nanMax2 (some a0) (some x0)) m hm).1 x h1
        · intro a ha
          have : a0 = a := by injection ha
          subst this
          exact le_trans (le_max_left a0 x0) hmid

lemma nanMin_le {l : List (Option ℚ)} {m x : ℚ} (hm : nanMin l = some m)
    (hx : some x ∈ l) : m ≤ x := by
  cases l with
  | nil => simp at hx
  | cons y ys =>
    rcases List.mem_cons.mp hx with h1 | h1
    · exact (foldl_nanMin2_le ys y m hm).2 x h1.symm
    · exact (foldl_nanMin2_le ys y m hm).1 x h1

lemma le_nanMax {l : List (Option ℚ)} {m x : ℚ} (hm : nanMax l = some m)
    (hx : some x ∈ l) : x ≤ m := by
  cases l with
  | nil => simp at hx
  | cons y ys =>
    rcases List.mem_cons.mp hx with h1 | h1
    · exact (foldl_nanMax2_ge ys y m hm).2 x h1.symm
    · exact (foldl_nanMax2_ge ys y m hm).1 x h1

lemma foldl_nanMin2_some :
    ∀ (l : List (Option ℚ)) (a : ℚ), (∀ v ∈ l, v ≠ none) →
      ∃ m, l.foldl nanMin2 (some a) = some m := by
  intro l
  induction l with
  | nil => intro a _; exact ⟨a, rfl⟩
  | cons y ys ih =>
    intro a hall
    cases y with
    | none => exact absurd rfl (hall none (by simp))
    | some b =>
      rcases ih (min a b) (fun v hv => hall v (by simp [hv])) with ⟨m, hm⟩
      exact ⟨m, by simpa [nanMin2] using hm⟩

lemma foldl_nanMax2_some :
    ∀ (l : List (Option ℚ)) (a : ℚ), (∀ v ∈ l, v ≠ none) →
      ∃ m, l.foldl nanMax2 (some a) = some m := by
  intro l
  induction l with
  | nil => intro a _; exact ⟨a, rfl⟩
  | cons y ys ih =>
    intro a hall
    cases y with
    | none => exact absurd rfl (hall none (by simp))
    | some b =>
      rcases ih (max a b) (fun v hv => hall v (by simp [hv])) with ⟨m, hm⟩
      exact ⟨m, by simpa [nanMax2] using hm⟩

lemma nanMin_isSome {l : List (Option ℚ)} (hne : l ≠ [])
    (hall : ∀ v ∈ l, v ≠ none) : ∃ m, nanMin l = some m := by
  cases l with
  | nil => exact absurd rfl hne
  | cons y ys =>
    cases y with
    | none => exact absurd rfl (hall none (by simp))
    | some a => exact foldl_nanMin2_some ys a (fun v hv => hall v (by simp [hv]))

lemma nanMax_isSome {l : List (Option ℚ)} (hne : l ≠ [])
    (hall : ∀ v ∈ l, v ≠ none) : ∃ m, nanMax l = some m := by
  cases l with
  | nil => exact absurd rfl hne
  | cons y ys =>
    cases y with
    | none => exact absurd rfl (hall none (by simp))
    | some a => exact foldl_nanMax2_some ys a (fun v hv => hall v (by simp [hv]))

lemma normCell_none_val (mn mx : Option ℚ) : normCell mn mx none = none := by
  cases mn <;> cases mx <;> rfl

lemma normCell_none_min (mx v : Option ℚ) : normCell none mx v = none := by
  cases v <;> cases mx <;> rfl

lemma Temp_norm_cells (g : DecayGrid) :
    (Temp_norm g).cells.flatten =
      g.cells.flatten.map (normCell (min_temp g) (max_temp g)) := by
  simp only [Temp_norm]
  exact (List.map_flatten _ _).symm

lemma pivot_ex4_eq :
    pivot_table (df_3d ex4 15) Col.fuel_flow =
      ⟨[95/100, 1], [975/1000, 1], [[some 30, some 20], [none, some 11]]⟩ := by
  norm_num [ex4, pivot_table, df_3d, rowKeysOf, colKeysOf, relRows, sortedDistinct,
    aggCell, aggStep, Observation.get, List.filter, List.dedup, List.pwFilter,
    List.insertionSort, List.orderedInsert, List.foldl, DecayGrid.mk.injEq]

/-! Claim theorems. -/

/-- C1: in the grid built by the decay-grid aggregation (speed filter,
then pivot with index compressor_decay, columns turbine_decay, mean
aggregator), the cell at every key pair (r, c) equals the mean of the
value field over exactly those filtered rows whose compressor_decay is
r and turbine_decay is c, ignoring missing value entries. -/
theorem pivot_cell_is_filtered_mean (df : List Observation) (v : ℚ) (f : Col) (r c : ℚ)
    (hr : r ∈ (pivot_table (df_3d df v) f).rowKeys)
    (hc : c ∈ (pivot_table (df_3d df v) f).colKeys) :
    gridCell (pivot_table (df_3d df v) f) r c =
      some (listMean (bruteVals (df_3d df v) f r c)) := by
  rw [gridCell_pivot_table _ _ hr hc, aggCell_eq_listMean]

/-- Witness for C1: the cell at (0.95, 1) of the example grid is the
brute-force mean of its group. -/
theorem pivot_cell_is_filtered_mean_witness :
    (95/100 : ℚ) ∈ (pivot_table (df_3d ex4 15) Col.fuel_flow).rowKeys ∧
    (1 : ℚ) ∈ (pivot_table (df_3d ex4 15) Col.fuel_flow).colKeys ∧
    gridCell (pivot_table (df_3d ex4 15) Col.fuel_flow) (95/100) 1 =
      some (listMean (bruteVals (df_3d ex4 15) Col.fuel_flow (95/100) 1)) :=
  ⟨by norm_num [pivot_ex4_eq], by norm_num [pivot_ex4_eq],
    pivot_cell_is_filtered_mean ex4 15 Col.fuel_flow (95/100) 1
      (by norm_num [pivot_ex4_eq]) (by norm_num [pivot_ex4_eq])⟩

/-- C3 counterexample: on a filtered dataset holding a row whose value
field is missing, the row keys are not the sorted distinct
compressor-decay values of the filtered data — the key carried only by
the missing-value row is dropped. -/
theorem pivot_rowKeys_drop_missing_value_rows :
    (pivot ex3 15).rowKeys ≠ sortedDistinct ((df_3d ex3 15).map (·.compressor_decay)) := by
  norm_num [ex3, pivot, pivot_table, df_3d, rowKeysOf, relRows, sortedDistinct,
    Observation.get, List.filter, List.dedup, List.pwFilter,
    List.insertionSort, List.orderedInsert]

/-- C3 (amended): the row keys are exactly the sorted distinct
compressor-decay values and the column keys exactly the sorted distinct
turbine-decay values among the filtered rows whose value field is
present (hence never values only present in filtered-out rows), and
both key sequences are strictly ascending with no duplicates. -/
theorem pivot_keys_sorted_and_characterized (df : List Observation) (v : ℚ) (f : Col) :
    (pivot_table (df_3d df v) f).rowKeys.Sorted (· < ·) ∧
    (pivot_table (df_3d df v) f).colKeys.Sorted (· < ·) ∧
    (∀ r, r ∈ (pivot_table (df_3d df v) f).rowKeys ↔
      ∃ o, o ∈ df_3d df v ∧ (o.get f).isSome = true ∧ o.compressor_decay = r) ∧
    (∀ c, c ∈ (pivot_table (df_3d df v) f).colKeys ↔
      ∃ o, o ∈ df_3d df v ∧ (o.get f).isSome = true ∧ o.turbine_decay = c) := by
  refine ⟨sortedDistinct_sorted_lt _, sortedDistinct_sorted_lt _, ?_, ?_⟩
  · intro r
    exact mem_rowKeysOf
  · intro c
    exact mem_colKeysOf

/-- C5 counterexample: a speed filter matching no row of the 4-row
example dataset makes the build return the empty grid — a successful
result, not a distinct error outcome. -/
theorem empty_filter_gives_empty_grid_on_example :
    pivot ex4 99 = ⟨[], [], []⟩ := by
  norm_num [ex4, pivot, pivot_table, df_3d, rowKeysOf, colKeysOf, relRows, sortedDistinct,
    List.filter, List.dedup, List.pwFilter, List.insertionSort]

/-- C5 (amended): when the speed filter yields zero rows, the build
returns the grid with empty key sets and no cells (the pivot of an
empty frame), rather than failing. -/
theorem empty_filter_gives_empty_grid (df : List Observation) (v : ℚ) (f : Col)
    (h : df_3d df v = []) : pivot_table (df_3d df v) f = ⟨[], [], []⟩ := by
  rw [h]
  rfl

/-- Witness for C5: the all-excluding filter on the example dataset. -/
theorem empty_filter_gives_empty_grid_witness :
    df_3d ex4 99 = [] ∧ pivot_table (df_3d ex4 99) Col.fuel_flow = ⟨[], [], []⟩ :=
  ⟨by norm_num [ex4, df_3d, List.filter],
    empty_filter_gives_empty_grid ex4 99 Col.fuel_flow (by norm_num [ex4, df_3d, List.filter])⟩

/-- C6 counterexample: normalising a grid whose every defined cell is
5.0 yields the grid of all-undefined cells (0/0 is NaN), not an error
outcome. -/
theorem constant_grid_normalizes_to_all_undefined :
    Temp_norm gConst = ⟨[1], [1, 2], [[none, none]]⟩ := by
  norm_num [gConst, Temp_norm, min_temp, max_temp, nanMin, nanMax, nanMin2, nanMax2,
    normCell, List.foldl, min_self, max_self]

/-- C6 (amended): whenever the computed minimum equals the computed
maximum, every cell of the normalised grid is undefined (NaN), instead
of a division-by-zero failure. -/
theorem degenerate_range_all_cells_undefined (g : DecayGrid)
    (h : min_temp g = max_temp g) :
    ∀ w ∈ (Temp_norm g).cells.flatten, w = none := by
  intro w hw
  rw [Temp_norm_cells] at hw
  rcases List.mem_map.mp hw with ⟨u, hu, rfl⟩
  cases hmn : min_temp g with
  | none => exact normCell_none_min _ _
  | some m =>
    have hmx : max_temp g = some m := by rw [← h, hmn]
    rw [hmx]
    cases u with
    | none => exact normCell_none_val _ _
    | some x => simp [normCell, sub_self]

/-- Witness for C6: the all-5.0 grid has a degenerate range and
normalises to only undefined cells. -/
theorem degenerate_range_witness :
    min_temp gConst = max_temp gConst ∧
    ∀ w ∈ (Temp_norm gConst).cells.flatten, w = none :=
  ⟨by norm_num [gConst, min_temp, max_temp, nanMin, nanMax, nanMin2, nanMax2, min_self, max_self],
    degenerate_range_all_cells_undefined gConst
      (by norm_num [gConst, min_temp, max_temp, nanMin, nanMax, nanMin2, nanMax2, min_self,
        max_self])⟩

/-- C8: the grid build is pure — the dataset an invocation hands back
is the dataset it received, and a second invocation on that dataset
with identical arguments yields the identical grid. -/
theorem buildGrid_twice_pure (df : List Observation) (v : ℚ) (f : Col) :
    (buildGridCall df v f).2 = df ∧
    (buildGridCall (buildGridCall df v f).2 v f).1 = (buildGridCall df v f).1 :=
  ⟨rfl, rfl⟩

/-- C9: the fuel-flow grid pivoted for the surface-height pass and the
fuel-flow grid re-pivoted for the paired height/colour pass have the
same key sets and the same cells at every key pair. -/
theorem pivot_and_pivot_z_agree (df : List Observation) (v : ℚ) :
    (pivot df v).rowKeys = (pivot_z df v).rowKeys ∧
    (pivot df v).colKeys = (pivot_z df v).colKeys ∧
    (pivot df v).cells = (pivot_z df v).cells ∧
    ∀ r c, gridCell (pivot df v) r c = gridCell (pivot_z df v) r c :=
  ⟨rfl, rfl, rfl, fun _ _ => rfl⟩

/-- C10: whenever any cell of the colour grid is undefined, the
computed minimum and maximum are both undefined, and consequently every
cell of the normalised grid — including every cell that was defined in
the input — is undefined. -/
theorem nan_poisons_normalized_grid (g : DecayGrid) (h : none ∈ g.cells.flatten) :
    min_temp g = none ∧ max_temp g = none ∧
    ∀ w ∈ (Temp_norm g).cells.flatten, w = none := by
  have h1 : min_temp g = none := nanMin_eq_none_of_mem h
  have h2 : max_temp g = none := nanMax_eq_none_of_mem h
  refine ⟨h1, h2, ?_⟩
  intro w hw
  rw [Temp_norm_cells] at hw
  rcases List.mem_map.mp hw with ⟨u, hu, rfl⟩
  rw [h1, normCell_none_min]

/-- Witness for C10: the mixed grid has a hole, so its whole normalised
grid collapses to undefined. -/
theorem nan_poisons_normalized_grid_witness :
    none ∈ gMix.cells.flatten ∧
    (min_temp gMix = none ∧ max_temp gMix = none ∧
      ∀ w ∈ (Temp_norm gMix).cells.flatten, w = none) :=
  ⟨by norm_num [gMix], nan_poisons_normalized_grid gMix (by norm_num [gMix])⟩

/-- C2 counterexample: with fuel and temperature missing on different
rows, the independently pivoted height and colour grids disagree on
their row key sets. -/
theorem paired_pivot_keysets_differ_on_mixed_missing :
    (pivot_z ex2 15).rowKeys ≠ (pivot_temp ex2 15).rowKeys := by
  norm_num [ex2, pivot_z, pivot_temp, pivot_table, df_3d, rowKeysOf, relRows, sortedDistinct,
    Observation.get, List.filter, List.dedup, List.pwFilter, List.insertionSort,
    List.orderedInsert]

/-- C2 (amended): the paired height and colour grids have identical row
and column key sets whenever the two value fields are missing on
exactly the same filtered rows (in particular whenever no value is
missing); with different missing patterns the key sets can differ. -/
theorem paired_pivots_same_keys_of_same_missing (df : List Observation) (v : ℚ)
    (h : ∀ o ∈ df_3d df v, (o.get Col.fuel_flow).isSome = (o.get Col.t48).isSome) :
    (pivot_z df v).rowKeys = (pivot_temp df v).rowKeys ∧
    (pivot_z df v).colKeys = (pivot_temp df v).colKeys := by
  have hrel : relRows (df_3d df v) Col.fuel_flow = relRows (df_3d df v) Col.t48 :=
    List.filter_congr fun o ho => by rw [h o ho]
  exact ⟨by simp [pivot_z, pivot_temp, pivot_table, rowKeysOf, hrel],
    by simp [pivot_z, pivot_temp, pivot_table, colKeysOf, hrel]⟩

/-- Witness for C2: on the example dataset no value is missing, and the
two grids carry equal key sets. -/
theorem paired_pivots_same_keys_witness :
    (∀ o ∈ df_3d ex4 15, (o.get Col.fuel_flow).isSome = (o.get Col.t48).isSome) ∧
    (pivot_z ex4 15).rowKeys = (pivot_temp ex4 15).rowKeys ∧
    (pivot_z ex4 15).colKeys = (pivot_temp ex4 15).colKeys :=
  ⟨by decide, paired_pivots_same_keys_of_same_missing ex4 15 (by decide)⟩

/-- C4 counterexample: on a grid with one undefined cell, the computed
minimum is not the minimum over the defined cells only — the omitted
bounds do not ignore undefined cells. -/
theorem normalize_bounds_not_defined_only :
    min_temp gMix ≠ definedMin gMix.cells.flatten := by
  norm_num [gMix, min_temp, nanMin, nanMin2, definedMin, List.foldl, List.filterMap,
    id, min_def]
  exact fun h => Option.noConfusion h

/-- C4 (amended): the omitted bounds are computed over all cells with
undefined cells propagating into them; when every cell is defined and
the computed range is non-degenerate, every normalised cell is defined
and lies in [0, 1]; and a cell undefined in the input is normalised to
an undefined cell. -/
theorem normalize_range_and_hole_preservation (g : DecayGrid) :
    ((∀ u ∈ g.cells.flatten, u ≠ none) → min_temp g ≠ max_temp g →
      ∀ w ∈ (Temp_norm g).cells.flatten, ∃ x, w = some x ∧ 0 ≤ x ∧ x ≤ 1) ∧
    (∀ i j, cellAt g i j = some none → cellAt (Temp_norm g) i j = some none) := by
  constructor
  · intro hall hne w hw
    rw [Temp_norm_cells] at hw
    rcases List.mem_map.mp hw with ⟨u, hu, rfl⟩
    have hnil : g.cells.flatten ≠ [] := List.ne_nil_of_mem hu
    rcases nanMin_isSome hnil hall with ⟨a, ha⟩
    rcases nanMax_isSome hnil hall with ⟨b, hb⟩
    have ha2 : min_temp g = some a := ha
    have hb2 : max_temp g = some b := hb
    cases u with
    | none => exact absurd rfl (hall none hu)
    | some x =>
      have hax : a ≤ x := nanMin_le ha hu
      have hxb : x ≤ b := le_nanMax hb hu
      have hab : a < b :=
        lt_of_le_of_ne (le_trans hax hxb) fun he => hne (by rw [ha2, hb2, he])
      have hba : b - a ≠ 0 := sub_ne_zero.mpr (ne_of_gt hab)
      refine ⟨(x - a) / (b - a), ?_, ?_, ?_⟩
      · rw [ha2, hb2]
        simp [normCell, hba]
      · exact div_nonneg (by linarith) (by linarith)
      · rw [div_le_one (by linarith)]
        linarith
  · intro i j hij
    simp only [cellAt, Temp_norm] at hij ⊢
    rw [List.getElem?_map]
    cases hrow : g.cells[i]? with
    | none => rw [hrow] at hij; simp at hij
    | some row =>
      rw [hrow] at hij
      have hij2 : row[j]? = some none := hij
      show (row.map (normCell (min_temp g) (max_temp g)))[j]? = some none
      rw [List.getElem?_map, hij2]
      simp [normCell_none_val]

/-- Witness for C4: a fully defined grid normalises into [0, 1], and
the hole of the mixed grid stays a hole. -/
theorem normalize_range_witness :
    ((∀ u ∈ gAll.cells.flatten, u ≠ none) ∧ min_temp gAll ≠ max_temp gAll ∧
      (∀ w ∈ (Temp_norm gAll).cells.flatten, ∃ x, w = some x ∧ 0 ≤ x ∧ x ≤ 1)) ∧
    (cellAt gMix 1 1 = some none ∧ cellAt (Temp_norm gMix) 1 1 = some none) :=
  ⟨⟨by decide, by norm_num [gAll, min_temp, max_temp, nanMin, nanMax, nanMin2, nanMax2,
      min_def, max_def],
    (normalize_range_and_hole_preservation gAll).1 (by decide)
      (by norm_num [gAll, min_temp, max_temp, nanMin, nanMax, nanMin2, nanMax2,
        min_def, max_def])⟩,
    ⟨by decide,
      (normalize_range_and_hole_preservation gMix).2 1 1 (by decide)⟩⟩

/-- C7: a key pair of the built grid with no contributing observations
is an undefined cell (a hole, never zero); and on the 4-row example
dataset with an all-pass filter and mean aggregation the grid has row
keys [0.95, 1], column keys [0.975, 1], cells 30, 20 and 11, and a
hole at (1, 0.975). -/
theorem empty_group_cell_is_hole_and_example_grid :
    (∀ (df : List Observation) (v : ℚ) (f : Col) (r c : ℚ),
        r ∈ (pivot_table (df_3d df v) f).rowKeys →
        c ∈ (pivot_table (df_3d df v) f).colKeys →
        bruteVals (df_3d df v) f r c = [] →
        gridCell (pivot_table (df_3d df v) f) r c = some none) ∧
    ((pivot ex4 15).rowKeys = [95/100, 1] ∧
      (pivot ex4 15).colKeys = [975/1000, 1] ∧
      gridCell (pivot ex4 15) (95/100) (975/1000) = some (some 30) ∧
      gridCell (pivot ex4 15) (95/100) 1 = some (some 20) ∧
      gridCell (pivot ex4 15) 1 1 = some (some 11) ∧
      gridCell (pivot ex4 15) 1 (975/1000) = some none) := by
  constructor
  · intro df v f r c hr hc hb
    rw [gridCell_pivot_table _ _ hr hc, aggCell_eq_listMean, hb]
    rfl
  · refine ⟨?_, ?_, ?_, ?_, ?_, ?_⟩ <;>
      norm_num [pivot, pivot_ex4_eq, gridCell, lookupBy]

/-- Witness for C7: the hole of the example grid comes from a group
with no contributing observations. -/
theorem empty_group_cell_witness :
    (1 : ℚ) ∈ (pivot_table (df_3d ex4 15) Col.fuel_flow).rowKeys ∧
    (975/1000 : ℚ) ∈ (pivot_table (df_3d ex4 15) Col.fuel_flow).colKeys ∧
    bruteVals (df_3d ex4 15) Col.fuel_flow 1 (975/1000) = [] ∧
    gridCell (pivot_table (df_3d ex4 15) Col.fuel_flow) 1 (975/1000) = some none :=
  ⟨by norm_num [pivot_ex4_eq], by norm_num [pivot_ex4_eq],
    by norm_num [bruteVals, df_3d, ex4, Observation.get, List.filter],
    empty_group_cell_is_hole_and_example_grid.1 ex4 15 Col.fuel_flow 1 (975/1000)
      (by norm_num [pivot_ex4_eq]) (by norm_num [pivot_ex4_eq])
      (by norm_num [bruteVals, df_3d, ex4, Observation.get, List.filter])⟩
